import Mathlib

/-!
Verification of the ssbh_lib animation track codec
(`ssbh_data/src/anim_data/buffers.rs` and
`ssbh_data/src/anim_data/compression.rs`).

Modelling conventions:
* `f32` values flowing through the quantization layer are modelled by exact
  rationals (`ℚ`); the floating-point rounding of `f32` arithmetic is
  idealised as exact arithmetic.  `f32::sqrt` is abstracted as an explicit
  function parameter `sqrtF : ℚ → ℚ`.
* `f32` values flowing through the *uncompressed* codec are modelled by their
  raw 32-bit patterns (`Nat < 2^32`), because that code path only copies
  bytes and never performs floating-point arithmetic.
* Machine integers (`u16`, `u32`, `u64`, `usize`) are modelled by `Nat`,
  with an explicit `% 2^32` where the source performs wrapping `u32`
  arithmetic.
* Fallible operations return `Except DecodeError`.  A Rust `panic!`
  (the `.unwrap()` in `calculate_rotation_w`) is modelled by the
  distinguished error value `DecodeError.panicked`.
* The bit stream (`bitbuffer::BitReadStream<LittleEndian>`) is modelled as a
  `List Bool` read least-significant-bit first; `read_int` fails when fewer
  bits remain than requested, or when more bits are requested than the
  target integer type holds.
-/

namespace Ssbh

/-- `ScaleType`, the low two bits of the compression flags
(`compression.rs`, `enum ScaleType`). -/
inductive ScaleType where
  | none
  | scaleNoInheritance
  | scale
  | uniformScale
deriving DecidableEq, Repr

/-- The 16-bit compression flags bitfield (`compression.rs`,
`struct CompressionFlags`); the reserved bits are ignored by the codec and
omitted from the model. -/
structure CompressionFlags where
  scale_type : ScaleType
  has_rotation : Bool
  has_translation : Bool
deriving DecidableEq, Repr

/-- Errors surfaced by the decoder (`anim_data/error.rs` variants
`UnexpectedBitCount` and `MalformedCompressionHeader`, together with the
bit-reader failures of the `bitbuffer` crate).  `panicked` marks a Rust
panic (an `unwrap()` of a failed bit read). -/
inductive DecodeError where
  | unexpectedBitCount (expected actual : Nat)
  | malformedCompressionHeader
  | notEnoughBits
  | tooManyBits
  | panicked
deriving DecidableEq, Repr

/-- A bit stream, least-significant bit of the first byte first, as produced
by `BitReader::from_slice` / `BitReadStream::new` over the compressed
buffer bytes. -/
abbrev BitStream := List Bool

/-- Value of a little-endian (LSB-first) bit sequence. -/
def bitsToNat : List Bool → Nat
  | [] => 0
  | b :: rest => (if b then 1 else 0) + 2 * bitsToNat rest

/-- Read `n` bits LSB-first; `none` when the stream is exhausted
(the bit reader's bounds check). -/
def readBitsLE (n : Nat) (s : BitStream) : Option (Nat × BitStream) :=
  if n ≤ s.length then some (bitsToNat (s.take n), s.drop n) else none

/-- `BitReadStream::read_int::<T>(n)`: fails with `TooManyBits` when `n`
exceeds the bit width of `T`, and with `NotEnoughData` when the stream is
exhausted. -/
def read_int (width n : Nat) (s : BitStream) : Except DecodeError (Nat × BitStream) :=
  if width < n then .error .tooManyBits
  else
    match readBitsLE n s with
    | some (v, rest) => .ok (v, rest)
    | none => .error .notEnoughBits

/-- `F32Compression` (`compression.rs`): `min`/`max` are `f32` (modelled by
`ℚ`), `bit_count` is `u64` (modelled by `Nat`). -/
structure F32Compression where
  min : ℚ
  max : ℚ
  bit_count : Nat
deriving DecidableEq, Repr

/-- `U32Compression` (`compression.rs`). -/
structure U32Compression where
  min : Nat
  max : Nat
  bit_count : Nat
deriving DecidableEq, Repr

/-- `Vector3` (`ssbh_lib/src/vectors.rs`) with `f32` fields modelled by `ℚ`. -/
structure Vector3 where
  x : ℚ
  y : ℚ
  z : ℚ
deriving DecidableEq, Repr

/-- `Vector4` (`ssbh_lib/src/vectors.rs`) with `f32` fields modelled by `ℚ`. -/
structure Vector4 where
  x : ℚ
  y : ℚ
  z : ℚ
  w : ℚ
deriving DecidableEq, Repr

/-- `Vector4::xyz`. -/
def Vector4.xyz (v : Vector4) : Vector3 := ⟨v.x, v.y, v.z⟩

/-- `Vector3::min`, componentwise (`f32::min` idealised as exact `min`). -/
def Vector3.minV (a b : Vector3) : Vector3 :=
  ⟨min a.x b.x, min a.y b.y, min a.z b.z⟩

/-- `Vector3::max`, componentwise. -/
def Vector3.maxV (a b : Vector3) : Vector3 :=
  ⟨max a.x b.x, max a.y b.y, max a.z b.z⟩

/-- `Vector4::min`, componentwise. -/
def Vector4.minV (a b : Vector4) : Vector4 :=
  ⟨min a.x b.x, min a.y b.y, min a.z b.z, min a.w b.w⟩

/-- `Vector4::max`, componentwise. -/
def Vector4.maxV (a b : Vector4) : Vector4 :=
  ⟨max a.x b.x, max a.y b.y, max a.z b.z, max a.w b.w⟩

/-- `Vector3Compression` (`compression.rs`). -/
structure Vector3Compression where
  x : F32Compression
  y : F32Compression
  z : F32Compression
deriving DecidableEq, Repr

/-- `Vector4Compression` (`compression.rs`). -/
structure Vector4Compression where
  x : F32Compression
  y : F32Compression
  z : F32Compression
  w : F32Compression
deriving DecidableEq, Repr

/-- `TransformCompression` (`compression.rs`). -/
structure TransformCompression where
  scale : Vector3Compression
  rotation : Vector3Compression
  translation : Vector3Compression
deriving DecidableEq, Repr

/-- `UvTransformCompression` (`compression.rs`). -/
structure UvTransformCompression where
  scale_u : F32Compression
  scale_v : F32Compression
  rotation : F32Compression
  translate_u : F32Compression
  translate_v : F32Compression
deriving DecidableEq, Repr

/-- `UvTransform` (`anim_data`), `f32` fields modelled by `ℚ`. -/
structure UvTransform where
  scale_u : ℚ
  scale_v : ℚ
  rotation : ℚ
  translate_u : ℚ
  translate_v : ℚ
deriving DecidableEq, Repr

/-- `UncompressedTransform` (`compression.rs`): a transform plus the 32-bit
`compensate_scale` flag. -/
structure UncompressedTransform where
  scale : Vector3
  rotation : Vector4
  translation : Vector3
  compensate_scale : Nat
deriving DecidableEq, Repr

/-- `Compression::bit_count` for `Vector3Compression`. -/
def Vector3Compression.bit_count (c : Vector3Compression) (_ : CompressionFlags) : Nat :=
  c.x.bit_count + c.y.bit_count + c.z.bit_count

/-- `Compression::bit_count` for `Vector4Compression`. -/
def Vector4Compression.bit_count (c : Vector4Compression) (_ : CompressionFlags) : Nat :=
  c.x.bit_count + c.y.bit_count + c.z.bit_count + c.w.bit_count

/-- `Compression::bit_count` for `TransformCompression` (`compression.rs`,
lines 284-306), written in the source's accumulation order: translation,
then the scale contribution selected by `ScaleType`, then rotation, then
one sign bit when `has_rotation` is set. -/
def TransformCompression.bit_count (c : TransformCompression) (flags : CompressionFlags) : Nat :=
  c.translation.bit_count flags
    + (match flags.scale_type with
      | ScaleType.scale => c.scale.bit_count flags
      | ScaleType.scaleNoInheritance => c.scale.bit_count flags
      | ScaleType.uniformScale => c.scale.x.bit_count
      | ScaleType.none => 0)
    + c.rotation.bit_count flags
    + (if flags.has_rotation then 1 else 0)

/-- `Compression::bit_count` for `UvTransformCompression`. -/
def UvTransformCompression.bit_count (c : UvTransformCompression) (_ : CompressionFlags) : Nat :=
  c.scale_u.bit_count + c.scale_v.bit_count + c.rotation.bit_count
    + c.translate_u.bit_count + c.translate_v.bit_count

/-- `bit_mask` (`compression.rs`): a mask of `bit_count` ones.  Only called
with `1 ≤ bit_count ≤ 32`, where the `u64` arithmetic is exact. -/
def bit_mask (bit_count : Nat) : Nat := 2 ^ bit_count - 1

/-- The linear interpolation used by `decompress_f32`. -/
def lerp (a b t : ℚ) : ℚ := a * (1 - t) + b * t

/-- `decompress_f32` (`compression.rs`): dequantize `value` on the grid of
`2^bit_count` points between `min` and `max`. -/
def decompress_f32 (value : Nat) (mn mx : ℚ) (bit_count : Nat) : ℚ :=
  lerp mn mx ((value : ℚ) / (bit_mask bit_count : ℚ))

/-- `read_compressed_f32` (`compression.rs`, lines 429-449): a zero
`bit_count` or a degenerate `min == max` range reads no bits and returns
`none`; otherwise `bit_count` bits are read and dequantized. -/
def read_compressed_f32 (s : BitStream) (c : F32Compression) :
    Except DecodeError (Option ℚ × BitStream) :=
  if c.bit_count = 0 then .ok (none, s)
  else if c.min = c.max then .ok (none, s)
  else do
    let (v, rest) ← read_int 32 c.bit_count s
    .ok (some (decompress_f32 v c.min c.max c.bit_count), rest)

/-- `<f32 as CompressedData>::decompress` (`compression.rs`, lines 809-822):
`read_compressed_f32` with the header default substituted for `none`. -/
def decompress_f32_value (s : BitStream) (c : F32Compression) (default : ℚ) :
    Except DecodeError (ℚ × BitStream) := do
  let (o, rest) ← read_compressed_f32 s c
  .ok (o.getD default, rest)

/-- `<Vector3 as CompressedData>::decompress`. -/
def decompress_vector3 (s : BitStream) (c : Vector3Compression) (d : Vector3) :
    Except DecodeError (Vector3 × BitStream) := do
  let (x, s1) ← decompress_f32_value s c.x d.x
  let (y, s2) ← decompress_f32_value s1 c.y d.y
  let (z, s3) ← decompress_f32_value s2 c.z d.z
  .ok (⟨x, y, z⟩, s3)

/-- `<Vector4 as CompressedData>::decompress`. -/
def decompress_vector4 (s : BitStream) (c : Vector4Compression) (d : Vector4) :
    Except DecodeError (Vector4 × BitStream) := do
  let (x, s1) ← decompress_f32_value s c.x d.x
  let (y, s2) ← decompress_f32_value s1 c.y d.y
  let (z, s3) ← decompress_f32_value s2 c.z d.z
  let (w, s4) ← decompress_f32_value s3 c.w d.w
  .ok (⟨x, y, z, w⟩, s4)

/-- `calculate_rotation_w` (`compression.rs`, lines 327-348).  The source
calls `bit_stream.read_bool().unwrap()`: an exhausted stream makes the
`unwrap` panic, modelled by `DecodeError.panicked`.  `w2.is_sign_negative()`
is modelled as `w2 < 0` (over exact rationals a negative-zero discriminant
cannot arise).  `f32::sqrt` is the abstract parameter `sqrtF`. -/
def calculate_rotation_w (sqrtF : ℚ → ℚ) (s : BitStream) (rotation : Vector3) :
    Except DecodeError (ℚ × BitStream) :=
  match s with
  | [] => .error .panicked
  | flip_w :: rest =>
    let w2 := 1 - (rotation.x * rotation.x + rotation.y * rotation.y
      + rotation.z * rotation.z)
    let w := if w2 < 0 then 0 else sqrtF w2
    .ok (if flip_w then -w else w, rest)

/-- `read_transform_compressed` (`compression.rs`, lines 451-480). -/
def read_transform_compressed (sqrtF : ℚ → ℚ) (s : BitStream)
    (c : TransformCompression) (d : UncompressedTransform) (flags : CompressionFlags) :
    Except DecodeError (UncompressedTransform × BitStream) := do
  let (scale, s1) ←
    match flags.scale_type with
    | ScaleType.uniformScale => do
      let (u, s1) ← decompress_f32_value s c.scale.x d.scale.x
      Except.ok ((⟨u, u, u⟩ : Vector3), s1)
    | _ => decompress_vector3 s c.scale d.scale
  let (rotation_xyz, s2) ← decompress_vector3 s1 c.rotation d.rotation.xyz
  let (translation, s3) ← decompress_vector3 s2 c.translation d.translation
  let (rotation_w, s4) ←
    if flags.has_rotation then calculate_rotation_w sqrtF s3 rotation_xyz
    else Except.ok (d.rotation.w, s3)
  .ok (⟨scale, ⟨rotation_xyz.x, rotation_xyz.y, rotation_xyz.z, rotation_w⟩,
    translation, d.compensate_scale⟩, s4)

/-- `read_uv_transform_compressed` (`compression.rs`, lines 361-388). -/
def read_uv_transform_compressed (s : BitStream) (c : UvTransformCompression)
    (d : UvTransform) (flags : CompressionFlags) :
    Except DecodeError (UvTransform × BitStream) := do
  let (sc, s1) ←
    match flags.scale_type with
    | ScaleType.uniformScale => do
      let (uniform_scale, s1) ← decompress_f32_value s c.scale_u d.scale_u
      Except.ok ((uniform_scale, uniform_scale), s1)
    | _ => do
      let (su, sa) ← decompress_f32_value s c.scale_u d.scale_u
      let (sv, sb) ← decompress_f32_value sa c.scale_v d.scale_v
      Except.ok ((su, sv), sb)
  let (rot, s2) ← decompress_f32_value s1 c.rotation d.rotation
  let (tu, s3) ← decompress_f32_value s2 c.translate_u d.translate_u
  let (tv, s4) ← decompress_f32_value s3 c.translate_v d.translate_v
  .ok (⟨sc.1, sc.2, rot, tu, tv⟩, s4)

/-- `read_pattern_index_compressed` (`compression.rs`, lines 350-359).  The
`value + compression.min` is a `u32` addition; the wrapping (release-build)
semantics `% 2^32` is used here. -/
def read_pattern_index_compressed (s : BitStream) (c : U32Compression) (_d : Nat) :
    Except DecodeError (Nat × BitStream) := do
  let (v, rest) ← read_int 32 c.bit_count s
  .ok ((v + c.min) % 2 ^ 32, rest)

/-- One instantiation of the `CompressedData` trait (`compression.rs`): the
value type, its compression descriptor, the extra decompression argument
extracted from the header, the `Compression::bit_count` method and the
`decompress` method. -/
structure CodecKind where
  Val : Type
  Comp : Type
  Args : Type
  bit_count : Comp → CompressionFlags → Nat
  decompress : BitStream → Comp → Val → Args → Except DecodeError (Val × BitStream)
  get_args : CompressionFlags → Nat → Args

/-- The 16-byte `CompressedHeader` (`compression.rs`).  `Modelled from the
spec:` the `Ptr16`/`Ptr32` relative-pointer parsers live in
`ssbh_lib/src/lib.rs`, which is not among the provided sources; per the
spec a stored offset of 0 parses as a null pointer, modelled by `Option`
fields (`none` = null).  The compressed buffer is carried as its bit
stream. -/
structure CompressedHeader (Val : Type) where
  unk_4 : Nat
  flags : CompressionFlags
  default_data : Option Val
  bits_per_entry : Nat
  compressed_data : Option BitStream
  frame_count : Nat

/-- `CompressedTrackData` (`compression.rs`): header plus descriptor. -/
structure CompressedTrackData (K : CodecKind) where
  header : CompressedHeader K.Val
  compression : K.Comp

/-- The frame-decoding loop of `read_compressed_inner` (`buffers.rs`,
lines 306-319): each iteration dereferences the default pointer
(`MalformedCompressionHeader` when null) and decompresses one frame; any
failure aborts the whole read. -/
def decode_frames (K : CodecKind) (comp : K.Comp) (default : Option K.Val)
    (args : K.Args) : Nat → BitStream → Except DecodeError (List K.Val × BitStream)
  | 0, s => .ok ([], s)
  | n + 1, s =>
    match default with
    | Option.none => .error .malformedCompressionHeader
    | some d => do
      let (v, s1) ← K.decompress s comp d args
      let (vs, s2) ← decode_frames K comp default args n s1
      .ok (v :: vs, s2)

/-- `read_compressed_inner` (`buffers.rs`, lines 272-322): verify
`bits_per_entry` against the descriptor, dereference the compressed-data
pointer, collapse to a single frame when the computed bit count is zero and
the requested frame count is positive, then decode. -/
def read_compressed_inner (K : CodecKind) (data : CompressedTrackData K)
    (frame_count : Nat) : Except DecodeError (List K.Val) :=
  let expected_bit_count := K.bit_count data.compression data.header.flags
  if data.header.bits_per_entry ≠ expected_bit_count then
    .error (.unexpectedBitCount expected_bit_count data.header.bits_per_entry)
  else
    match data.header.compressed_data with
    | Option.none => .error .malformedCompressionHeader
    | some buffer =>
      let actual_count :=
        if expected_bit_count = 0 ∧ 0 < frame_count then 1 else frame_count
      do
        let (values, _) ← decode_frames K data.compression data.header.default_data
          (K.get_args data.header.flags data.header.bits_per_entry) actual_count buffer
        .ok values

/-- The `CompressedData` instantiation for `f32` tracks. -/
abbrev floatCodec : CodecKind where
  Val := ℚ
  Comp := F32Compression
  Args := Unit
  bit_count := fun c _ => c.bit_count
  decompress := fun s c d _ => decompress_f32_value s c d
  get_args := fun _ _ => ()

/-- The `CompressedData` instantiation for `UncompressedTransform` tracks,
parameterised by the abstract `f32::sqrt`. -/
abbrev transformCodec (sqrtF : ℚ → ℚ) : CodecKind where
  Val := UncompressedTransform
  Comp := TransformCompression
  Args := CompressionFlags
  bit_count := TransformCompression.bit_count
  decompress := fun s c d flags => read_transform_compressed sqrtF s c d flags
  get_args := fun flags _ => flags

/-- The `CompressedData` instantiation for `UvTransform` tracks. -/
abbrev uvTransformCodec : CodecKind where
  Val := UvTransform
  Comp := UvTransformCompression
  Args := CompressionFlags
  bit_count := UvTransformCompression.bit_count
  decompress := read_uv_transform_compressed
  get_args := fun flags _ => flags

/-- `read_compressed_transforms` (`buffers.rs`, lines 324-344): the track's
`compensate_scale` is taken from the header's default value (null pointer is
malformed) before the frames are decoded. -/
def read_compressed_transforms (sqrtF : ℚ → ℚ)
    (data : CompressedTrackData (transformCodec sqrtF)) (frame_count : Nat) :
    Except DecodeError (List UncompressedTransform × Bool) :=
  match data.header.default_data with
  | Option.none => .error .malformedCompressionHeader
  | some d => do
    let values ← read_compressed_inner (transformCodec sqrtF) data frame_count
    .ok (values, d.compensate_scale != 0)

/-- `DEFAULT_F32_BIT_COUNT` (`compression.rs`). -/
def DEFAULT_F32_BIT_COUNT : Nat := 24

/-- `F32Compression::from_range` (`compression.rs`, lines 174-186). -/
def F32Compression.from_range (mn mx : ℚ) : F32Compression :=
  ⟨mn, mx, if mn = mx then 0 else DEFAULT_F32_BIT_COUNT⟩

/-- `Vector3Compression::from_range`. -/
def Vector3Compression.from_range (mn mx : Vector3) : Vector3Compression :=
  ⟨F32Compression.from_range mn.x mx.x, F32Compression.from_range mn.y mx.y,
    F32Compression.from_range mn.z mx.z⟩

/-- `Vector4Compression::from_range`. -/
def Vector4Compression.from_range (mn mx : Vector4) : Vector4Compression :=
  ⟨F32Compression.from_range mn.x mx.x, F32Compression.from_range mn.y mx.y,
    F32Compression.from_range mn.z mx.z, F32Compression.from_range mn.w mx.w⟩

/-- `find_min_f32` (`compression.rs`): `reduce(f32::min).unwrap_or(0.0)`. -/
def find_min_f32 : List ℚ → ℚ
  | [] => 0
  | v :: rest => rest.foldl min v

/-- `find_max_f32` (`compression.rs`). -/
def find_max_f32 : List ℚ → ℚ
  | [] => 0
  | v :: rest => rest.foldl max v

/-- `find_min_vector3` (`compression.rs`). -/
def find_min_vector3 : List Vector3 → Vector3
  | [] => ⟨0, 0, 0⟩
  | v :: rest => rest.foldl Vector3.minV v

/-- `find_max_vector3` (`compression.rs`). -/
def find_max_vector3 : List Vector3 → Vector3
  | [] => ⟨0, 0, 0⟩
  | v :: rest => rest.foldl Vector3.maxV v

/-- `find_min_vector4` (`compression.rs`). -/
def find_min_vector4 : List Vector4 → Vector4
  | [] => ⟨0, 0, 0, 0⟩
  | v :: rest => rest.foldl Vector4.minV v

/-- `find_max_vector4` (`compression.rs`). -/
def find_max_vector4 : List Vector4 → Vector4
  | [] => ⟨0, 0, 0, 0⟩
  | v :: rest => rest.foldl Vector4.maxV v

/-- `<UncompressedTransform as CompressedData>::get_default_and_compression`
(`compression.rs`, lines 541-569). -/
def UncompressedTransform.get_default_and_compression
    (values : List UncompressedTransform) (compensate_scale : Bool) :
    UncompressedTransform × TransformCompression :=
  let min_scale := find_min_vector3 (values.map (·.scale))
  let max_scale := find_max_vector3 (values.map (·.scale))
  let min_rotation := find_min_vector4 (values.map (·.rotation))
  let max_rotation := find_max_vector4 (values.map (·.rotation))
  let min_translation := find_min_vector3 (values.map (·.translation))
  let max_translation := find_max_vector3 (values.map (·.translation))
  (⟨min_scale, min_rotation, min_translation, if compensate_scale then 1 else 0⟩,
    ⟨Vector3Compression.from_range min_scale max_scale,
      Vector3Compression.from_range min_rotation.xyz max_rotation.xyz,
      Vector3Compression.from_range min_translation max_translation⟩)

/-- `<UvTransform as CompressedData>::get_default_and_compression`
(`compression.rs`, lines 609-642). -/
def UvTransform.get_default_and_compression (values : List UvTransform) :
    UvTransform × UvTransformCompression :=
  let min_scale_u := find_min_f32 (values.map (·.scale_u))
  let max_scale_u := find_max_f32 (values.map (·.scale_u))
  let min_scale_v := find_min_f32 (values.map (·.scale_v))
  let max_scale_v := find_max_f32 (values.map (·.scale_v))
  let min_rotation := find_min_f32 (values.map (·.rotation))
  let max_rotation := find_max_f32 (values.map (·.rotation))
  let min_translate_u := find_min_f32 (values.map (·.translate_u))
  let max_translate_u := find_max_f32 (values.map (·.translate_u))
  let min_translate_v := find_min_f32 (values.map (·.translate_v))
  let max_translate_v := find_max_f32 (values.map (·.translate_v))
  (⟨min_scale_u, min_scale_v, min_rotation, min_translate_u, min_translate_v⟩,
    ⟨F32Compression.from_range min_scale_u max_scale_u,
      F32Compression.from_range min_scale_v max_scale_v,
      F32Compression.from_range min_rotation max_rotation,
      F32Compression.from_range min_translate_u max_translate_u,
      F32Compression.from_range min_translate_v max_translate_v⟩)

/-- `<f32 as CompressedData>::get_default_and_compression`
(`compression.rs`, lines 840-848). -/
def f32_get_default_and_compression (values : List ℚ) : ℚ × F32Compression :=
  let mn := find_min_f32 values
  let mx := find_max_f32 values
  (mn, F32Compression.from_range mn mx)

/-- `<Vector4 as CompressedData>::get_default_and_compression`
(`compression.rs`, lines 757-763). -/
def vector4_get_default_and_compression (values : List Vector4) :
    Vector4 × Vector4Compression :=
  let mn := find_min_vector4 values
  let mx := find_max_vector4 values
  (mn, Vector4Compression.from_range mn mx)

/-- `values.iter().min().unwrap_or(0)` over `u32` values. -/
def find_min_u32 : List Nat → Nat
  | [] => 0
  | v :: rest => rest.foldl Nat.min v

/-- `values.iter().max().unwrap_or(0)` over `u32` values. -/
def find_max_u32 : List Nat → Nat
  | [] => 0
  | v :: rest => rest.foldl Nat.max v

/-- `<u32 as CompressedData>::get_default_and_compression`
(`compression.rs`, lines 797-806): the default is the constant `0` and the
bit count is the constant `DEFAULT_F32_BIT_COUNT`, regardless of the
values. -/
def u32_get_default_and_compression (values : List Nat) : Nat × U32Compression :=
  (0, ⟨find_min_u32 values, find_max_u32 values, DEFAULT_F32_BIT_COUNT⟩)

/-!
The uncompressed (`Direct` / `Constant` / `ConstTransform`) track codec.
This path (`TrackValues::write`, `read_uncompressed`, `read_track_values`
in `buffers.rs`) only copies the little-endian byte representation of each
record; no floating-point arithmetic is performed.  `f32` fields are
therefore modelled by their raw 32-bit patterns.  `Modelled from the spec:`
the derived `SsbhWrite`/`BinRead` record layout (fields in declaration
order, little-endian primitives, no padding for these types) comes from the
derive macros in `ssbh_write_derive`/`binrw`, which are not among the
provided sources; the spec fixes the layouts in §4.4.3 and §6.2, matching
the manual impls in `ssbh_write/src/lib.rs`.
-/

/-- `TrackTypeV2` (`anim.rs`): the six semantic track kinds. -/
inductive TrackTypeV2 where
  | transform
  | uvTransform
  | float
  | patternIndex
  | boolean
  | vector4
deriving DecidableEq, Repr

/-- A `Vector3` of raw `f32` bit patterns. -/
structure Vector3P where
  x : Nat
  y : Nat
  z : Nat
deriving DecidableEq, Repr

/-- A `Vector4` of raw `f32` bit patterns. -/
structure Vector4P where
  x : Nat
  y : Nat
  z : Nat
  w : Nat
deriving DecidableEq, Repr

/-- `Transform` (`anim_data`) with `f32` fields as bit patterns. -/
structure TransformP where
  scale : Vector3P
  rotation : Vector4P
  translation : Vector3P
deriving DecidableEq, Repr

/-- `UncompressedTransform` with `f32` fields as bit patterns: the wire
record of a `Transform` frame (scale, rotation xyzw, translation,
`compensate_scale : u32`). -/
structure UncompressedTransformP where
  scale : Vector3P
  rotation : Vector4P
  translation : Vector3P
  compensate_scale : Nat
deriving DecidableEq, Repr

/-- `UvTransform` with `f32` fields as bit patterns. -/
structure UvTransformP where
  scale_u : Nat
  scale_v : Nat
  rotation : Nat
  translate_u : Nat
  translate_v : Nat
deriving DecidableEq, Repr

/-- `TrackValues` (`anim_data`): one tagged value sequence per track kind,
over bit patterns. -/
inductive TrackValuesP where
  | transform (values : List TransformP)
  | uvTransform (values : List UvTransformP)
  | float (values : List Nat)
  | patternIndex (values : List Nat)
  | boolean (values : List Bool)
  | vector4 (values : List Vector4P)
deriving DecidableEq, Repr

/-- `UncompressedTransform::from_transform` (`compression.rs`,
lines 273-282), over bit patterns. -/
def UncompressedTransformP.from_transform (t : TransformP) (compensate_scale : Bool) :
    UncompressedTransformP :=
  ⟨t.scale, t.rotation, t.translation, if compensate_scale then 1 else 0⟩

/-- `Transform::from(&UncompressedTransform)` (`compression.rs`,
lines 263-271), over bit patterns. -/
def UncompressedTransformP.to_transform (t : UncompressedTransformP) : TransformP :=
  ⟨t.scale, t.rotation, t.translation⟩

/-- `u32::to_le_bytes` / the byte image of one `f32` pattern. -/
def encode_u32 (n : Nat) : List Nat :=
  [n % 256, n / 256 % 256, n / 65536 % 256, n / 16777216 % 256]

/-- Little-endian reassembly of a 4-byte field (`binrw` `read_le` for
`u32`/`f32`); the result is reduced `% 2^32` as the machine value is. -/
def decode_u32 : List Nat → Option (Nat × List Nat)
  | b0 :: b1 :: b2 :: b3 :: rest =>
    some ((b0 + 256 * b1 + 65536 * b2 + 16777216 * b3) % 2 ^ 32, rest)
  | _ => Option.none

/-- One byte (`u8` / `Boolean` wire form). -/
def decode_u8 : List Nat → Option (Nat × List Nat)
  | b :: rest => some (b % 256, rest)
  | [] => Option.none

/-- Byte image of a `Vector3` record. -/
def encode_vector3 (v : Vector3P) : List Nat :=
  encode_u32 v.x ++ encode_u32 v.y ++ encode_u32 v.z

/-- Byte image of a `Vector4` record. -/
def encode_vector4 (v : Vector4P) : List Nat :=
  encode_u32 v.x ++ encode_u32 v.y ++ encode_u32 v.z ++ encode_u32 v.w

/-- Byte image of an `UncompressedTransform` record (13 × f32 + u32). -/
def encode_uncompressed_transform (t : UncompressedTransformP) : List Nat :=
  encode_vector3 t.scale ++ encode_vector4 t.rotation
    ++ encode_vector3 t.translation ++ encode_u32 t.compensate_scale

/-- Byte image of a `UvTransform` record (5 × f32). -/
def encode_uv_transform (t : UvTransformP) : List Nat :=
  encode_u32 t.scale_u ++ encode_u32 t.scale_v ++ encode_u32 t.rotation
    ++ encode_u32 t.translate_u ++ encode_u32 t.translate_v

/-- Parse a `Vector3` record. -/
def decode_vector3 (bytes : List Nat) : Option (Vector3P × List Nat) := do
  let (x, r1) ← decode_u32 bytes
  let (y, r2) ← decode_u32 r1
  let (z, r3) ← decode_u32 r2
  some (⟨x, y, z⟩, r3)

/-- Parse a `Vector4` record. -/
def decode_vector4 (bytes : List Nat) : Option (Vector4P × List Nat) := do
  let (x, r1) ← decode_u32 bytes
  let (y, r2) ← decode_u32 r1
  let (z, r3) ← decode_u32 r2
  let (w, r4) ← decode_u32 r3
  some (⟨x, y, z, w⟩, r4)

/-- Parse an `UncompressedTransform` record. -/
def decode_uncompressed_transform (bytes : List Nat) :
    Option (UncompressedTransformP × List Nat) := do
  let (s, r1) ← decode_vector3 bytes
  let (r, r2) ← decode_vector4 r1
  let (t, r3) ← decode_vector3 r2
  let (cs, r4) ← decode_u32 r3
  some (⟨s, r, t, cs⟩, r4)

/-- Parse a `UvTransform` record. -/
def decode_uv_transform (bytes : List Nat) : Option (UvTransformP × List Nat) := do
  let (su, r1) ← decode_u32 bytes
  let (sv, r2) ← decode_u32 r1
  let (rot, r3) ← decode_u32 r2
  let (tu, r4) ← decode_u32 r3
  let (tv, r5) ← decode_u32 r4
  some (⟨su, sv, rot, tu, tv⟩, r5)

/-- `read_uncompressed` (`buffers.rs`, lines 168-178): ingest `frame_count`
consecutive records; any parse failure aborts the read. -/
def read_uncompressed {α : Type} (dec : List Nat → Option (α × List Nat)) :
    Nat → List Nat → Option (List α × List Nat)
  | 0, bytes => some ([], bytes)
  | n + 1, bytes => do
    let (v, r1) ← dec bytes
    let (vs, r2) ← read_uncompressed dec n r1
    some (v :: vs, r2)

/-- `TrackValues::write` (`buffers.rs`, lines 72-88) for the uncompressed
compression types (`Direct`, `Constant`, `ConstTransform`): each value is
written as its consecutive little-endian record; `Transform` values are
first paired with the `compensate_scale` flag, and `bool` values become
one `Boolean` byte. -/
def write_track_values_uncompressed (v : TrackValuesP) (compensate_scale : Bool) :
    List Nat :=
  match v with
  | .transform values =>
    ((values.map (fun t => UncompressedTransformP.from_transform t compensate_scale)).map
      encode_uncompressed_transform).flatten
  | .uvTransform values => (values.map encode_uv_transform).flatten
  | .float values => (values.map encode_u32).flatten
  | .patternIndex values => (values.map encode_u32).flatten
  | .boolean values => (values.map (fun b => [if b then (1 : Nat) else 0])).flatten
  | .vector4 values => (values.map encode_vector4).flatten

/-- The uncompressed branch of `read_track_values` (`buffers.rs`,
lines 223-257): parse `count` records of the kind's record type; a
`Transform` track reports `compensate_scale` from the first record
(`false` when empty), every other kind reports `false`. -/
def read_track_values_uncompressed (ty : TrackTypeV2) (bytes : List Nat)
    (count : Nat) : Option (TrackValuesP × Bool) :=
  match ty with
  | .transform => do
    let (values, _) ← read_uncompressed decode_uncompressed_transform count bytes
    let compensate_scale :=
      match values.head? with
      | some t => t.compensate_scale != 0
      | Option.none => false
    some (.transform (values.map UncompressedTransformP.to_transform), compensate_scale)
  | .uvTransform => do
    let (values, _) ← read_uncompressed decode_uv_transform count bytes
    some (.uvTransform values, false)
  | .float => do
    let (values, _) ← read_uncompressed decode_u32 count bytes
    some (.float values, false)
  | .patternIndex => do
    let (values, _) ← read_uncompressed decode_u32 count bytes
    some (.patternIndex values, false)
  | .boolean => do
    let (values, _) ← read_uncompressed decode_u8 count bytes
    some (.boolean (values.map (fun b => b != 0)), false)
  | .vector4 => do
    let (values, _) ← read_uncompressed decode_vector4 count bytes
    some (.vector4 values, false)

/-- The track kind of a `TrackValues` (`TrackValues::track_type`). -/
def TrackValuesP.track_type : TrackValuesP → TrackTypeV2
  | .transform _ => .transform
  | .uvTransform _ => .uvTransform
  | .float _ => .float
  | .patternIndex _ => .patternIndex
  | .boolean _ => .boolean
  | .vector4 _ => .vector4

/-- Number of frames in a `TrackValues`. -/
def TrackValuesP.length : TrackValuesP → Nat
  | .transform values => values.length
  | .uvTransform values => values.length
  | .float values => values.length
  | .patternIndex values => values.length
  | .boolean values => values.length
  | .vector4 values => values.length

/-- Well-formedness of a 32-bit field: it is an actual `f32`/`u32` bit
pattern. -/
abbrev wf32 (n : Nat) : Prop := n < 2 ^ 32

/-- All fields of a `Vector3P` are 32-bit patterns. -/
def Vector3P.wf (v : Vector3P) : Prop := wf32 v.x ∧ wf32 v.y ∧ wf32 v.z

/-- All fields of a `Vector4P` are 32-bit patterns. -/
def Vector4P.wf (v : Vector4P) : Prop := wf32 v.x ∧ wf32 v.y ∧ wf32 v.z ∧ wf32 v.w

/-- All fields of a `TransformP` are 32-bit patterns. -/
def TransformP.wf (t : TransformP) : Prop :=
  t.scale.wf ∧ t.rotation.wf ∧ t.translation.wf

/-- All fields of an `UncompressedTransformP` are 32-bit patterns. -/
def UncompressedTransformP.wf (t : UncompressedTransformP) : Prop :=
  t.scale.wf ∧ t.rotation.wf ∧ t.translation.wf ∧ wf32 t.compensate_scale

/-- All fields of a `UvTransformP` are 32-bit patterns. -/
def UvTransformP.wf (t : UvTransformP) : Prop :=
  wf32 t.scale_u ∧ wf32 t.scale_v ∧ wf32 t.rotation
    ∧ wf32 t.translate_u ∧ wf32 t.translate_v

/-- All numeric fields of a `TrackValues` are 32-bit patterns. -/
def TrackValuesP.wf : TrackValuesP → Prop
  | .transform values => ∀ t ∈ values, t.wf
  | .uvTransform values => ∀ t ∈ values, t.wf
  | .float values => ∀ n ∈ values, wf32 n
  | .patternIndex values => ∀ n ∈ values, wf32 n
  | .boolean _ => True
  | .vector4 values => ∀ v ∈ values, v.wf

/-!  Concrete example tracks used to exercise the theorems below. -/

/-- Flags with every feature disabled. -/
def plainFlags : CompressionFlags := ⟨ScaleType.none, false, false⟩

/-- A float track whose header `frame_count` field is 5 and whose computed
bits-per-entry is 0 (`min == max == 2/5`, `bit_count = 0`), with a valid
default (2/5) and an empty compressed buffer. -/
def floatTrackFrameCount5 : CompressedTrackData floatCodec :=
  ⟨⟨4, plainFlags, some ((2 : ℚ) / 5), 0, some [], 5⟩, ⟨2 / 5, 2 / 5, 0⟩⟩

/-- A float track whose header `bits_per_entry` (5) disagrees with the
descriptor's bit count (3). -/
def floatTrackBadBits : CompressedTrackData floatCodec :=
  ⟨⟨4, plainFlags, some 0, 5, some [], 1⟩, ⟨0, 1, 3⟩⟩

/-- A float track with a null default-data pointer, matching bit counts
(both 0) and a valid (empty) compressed buffer. -/
def floatTrackNullDefault : CompressedTrackData floatCodec :=
  ⟨⟨4, plainFlags, Option.none, 0, some [], 9⟩, ⟨0, 0, 0⟩⟩

/-- The identity-ish default transform used by the examples. -/
def exampleDefaultTransform : UncompressedTransform :=
  ⟨⟨1, 1, 1⟩, ⟨0, 0, 0, 1⟩, ⟨0, 0, 0⟩, 0⟩

/-- A transform descriptor whose nine components all have
`min = max = 0, bit_count = 0`. -/
def zeroTransformCompression : TransformCompression :=
  ⟨⟨⟨0, 0, 0⟩, ⟨0, 0, 0⟩, ⟨0, 0, 0⟩⟩, ⟨⟨0, 0, 0⟩, ⟨0, 0, 0⟩, ⟨0, 0, 0⟩⟩,
    ⟨⟨0, 0, 0⟩, ⟨0, 0, 0⟩, ⟨0, 0, 0⟩⟩⟩

/-- A compressed Transform track with `has_rotation` set, all component bit
counts 0 (so `bits_per_entry = 1`, the rotation sign bit alone), and an
empty bitstream: the sign-bit read has nothing to read. -/
def truncatedTransformTrack (sqrtF : ℚ → ℚ) :
    CompressedTrackData (transformCodec sqrtF) :=
  ⟨⟨4, ⟨ScaleType.none, true, false⟩, some exampleDefaultTransform, 1, some [], 1⟩,
    zeroTransformCompression⟩

/-- A compressed Transform track with `UniformScale` and every component
bit count 0 (decode-to-default throughout): the per-frame uniform scale is
the default `scale.x`, broadcast. -/
def uniformScaleTransformTrack (sqrtF : ℚ → ℚ) :
    CompressedTrackData (transformCodec sqrtF) :=
  ⟨⟨4, ⟨ScaleType.uniformScale, false, false⟩, some exampleDefaultTransform, 0,
    some [], 1⟩, zeroTransformCompression⟩

/-- A compressed UvTransform track with `UniformScale` and every component
bit count 0. -/
def uniformScaleUvTrack : CompressedTrackData uvTransformCodec :=
  ⟨⟨4, ⟨ScaleType.uniformScale, false, false⟩, some ⟨1, 1, 0, 0, 0⟩, 0,
    some [], 1⟩,
    ⟨⟨0, 0, 0⟩, ⟨0, 0, 0⟩, ⟨0, 0, 0⟩, ⟨0, 0, 0⟩, ⟨0, 0, 0⟩⟩⟩

/-- Flags selecting `UniformScale`, rotation and translation clear. -/
def uniformFlags : CompressionFlags := ⟨ScaleType.uniformScale, false, false⟩

/-- Flags selecting `Scale`, rotation and translation clear. -/
def fullScaleFlags : CompressionFlags := ⟨ScaleType.scale, false, false⟩

/-- A UvTransform descriptor whose five components are all degenerate. -/
def zeroUvCompression : UvTransformCompression :=
  ⟨⟨0, 0, 0⟩, ⟨0, 0, 0⟩, ⟨0, 0, 0⟩, ⟨0, 0, 0⟩, ⟨0, 0, 0⟩⟩

/-- A default transform whose scale components differ, exhibiting the
`UniformScale` broadcast of `scale.x`. -/
def skewedDefaultTransform : UncompressedTransform :=
  ⟨⟨1, 2, 3⟩, ⟨0, 0, 0, 1⟩, ⟨4, 5, 6⟩, 1⟩

end Ssbh

namespace Ssbh

/-! ## Helper lemmas -/

/-- Eliminating a successful `Except` bind. -/
theorem bind_ok_elim {ε α β : Type} {x : Except ε α} {f : α → Except ε β} {b : β}
    (h : x >>= f = Except.ok b) : ∃ a, x = Except.ok a ∧ f a = Except.ok b := by
  cases x with
  | error e => exact absurd h (by simp [Bind.bind, Except.bind])
  | ok a => exact ⟨a, rfl, by simpa [Bind.bind, Except.bind] using h⟩

/-! ## Claim C5 -/

/-- Claim C5: for every `TransformCompression` descriptor and flags, the
computed bits per frame equals the sum of the three translation bit counts,
plus the scale contribution selected by `ScaleType` (`None` contributes 0,
`UniformScale` only the x scale bit count, `Scale`/`ScaleNoInheritance` all
three scale bit counts), plus the three rotation bit counts, plus exactly
one sign bit iff `has_rotation` is set. -/
theorem claim_C5_transform_bit_count (c : TransformCompression) (flags : CompressionFlags) :
    c.bit_count flags =
      (c.translation.x.bit_count + c.translation.y.bit_count + c.translation.z.bit_count)
        + (match flags.scale_type with
          | ScaleType.none => 0
          | ScaleType.uniformScale => c.scale.x.bit_count
          | ScaleType.scale =>
            c.scale.x.bit_count + c.scale.y.bit_count + c.scale.z.bit_count
          | ScaleType.scaleNoInheritance =>
            c.scale.x.bit_count + c.scale.y.bit_count + c.scale.z.bit_count)
        + (c.rotation.x.bit_count + c.rotation.y.bit_count + c.rotation.z.bit_count)
        + (if flags.has_rotation then 1 else 0) := by
  obtain ⟨st, hr, ht⟩ := flags
  cases st <;>
    simp [TransformCompression.bit_count, Vector3Compression.bit_count]

/-! ## Claim C10 -/

/-- Claim C10: for every float component whose descriptor has `min = max`,
decoding returns the default value and consumes zero bits from the
bitstream, even when `bit_count > 0` (the bit-reading path is taken only
when `min ≠ max`). -/
theorem claim_C10_degenerate_range_uses_default (s : BitStream) (c : F32Compression)
    (d : ℚ) (h : c.min = c.max) :
    read_compressed_f32 s c = .ok (Option.none, s) ∧
    decompress_f32_value s c d = .ok (d, s) := by
  have h1 : read_compressed_f32 s c = .ok (Option.none, s) := by
    unfold read_compressed_f32
    by_cases h0 : c.bit_count = 0 <;> simp [h0, h]
  refine ⟨h1, ?_⟩
  unfold decompress_f32_value
  simp [h1, Bind.bind, Except.bind]

/-- Witness for claim C10: a descriptor with `min = max = 1` and a positive
`bit_count = 5` decodes to the default 7 and leaves the stream untouched. -/
theorem claim_C10_witness :
    (⟨1, 1, 5⟩ : F32Compression).min = (⟨1, 1, 5⟩ : F32Compression).max ∧
    decompress_f32_value [true, false] ⟨1, 1, 5⟩ (7 : ℚ) = .ok (7, [true, false]) :=
  ⟨rfl, (claim_C10_degenerate_range_uses_default [true, false] ⟨1, 1, 5⟩ 7 rfl).2⟩

/-! ## Claim C3 -/

/-- Claim C3: for every compressed track read (any `CompressedData`
instantiation), a header `bits_per_entry` that differs from the bit count
computed from the descriptor and flags makes decoding fail with
`UnexpectedBitCount` carrying the expected and actual counts, producing no
values. -/
theorem claim_C3_unexpected_bit_count (K : CodecKind) (data : CompressedTrackData K)
    (n : Nat)
    (h : data.header.bits_per_entry ≠ K.bit_count data.compression data.header.flags) :
    read_compressed_inner K data n =
      .error (.unexpectedBitCount (K.bit_count data.compression data.header.flags)
        data.header.bits_per_entry) := by
  unfold read_compressed_inner
  simp [h]

/-- Witness for claim C3: a float track whose header claims 5 bits per entry
over a 3-bit descriptor fails with `UnexpectedBitCount 3 5`. -/
theorem claim_C3_witness :
    floatTrackBadBits.header.bits_per_entry ≠
      floatCodec.bit_count floatTrackBadBits.compression floatTrackBadBits.header.flags ∧
    read_compressed_inner floatCodec floatTrackBadBits 1 =
      .error (.unexpectedBitCount 3 5) :=
  ⟨by decide, claim_C3_unexpected_bit_count floatCodec floatTrackBadBits 1 (by decide)⟩

/-! ## Claim C2 -/

/-- Claim C2 counterexample: the collapse-to-one-frame rule tests the
frame count passed by the caller, not the header's `frame_count` field.
Here the header's `frame_count` is 5 (> 0) and the computed bits-per-entry
is 0, yet decoding with a caller count of 0 produces zero frames, not one
frame equal to the default. -/
theorem claim_C2_counterexample :
    floatTrackFrameCount5.header.frame_count = 5 ∧
    read_compressed_inner floatCodec floatTrackFrameCount5 0 = .ok [] :=
  ⟨rfl, rfl⟩

/-- A zero-bit-count float component decodes to the default and reads
nothing, for any `min`/`max`. -/
theorem decompress_f32_value_zero_bits (s : BitStream) (c : F32Compression) (d : ℚ)
    (h : c.bit_count = 0) : decompress_f32_value s c d = .ok (d, s) := by
  unfold decompress_f32_value read_compressed_f32
  simp [h, Bind.bind, Except.bind]

/-- A `Vector3` whose three components have bit count 0 decodes to the
default and reads nothing. -/
theorem decompress_vector3_zero_bits (s : BitStream) (c : Vector3Compression)
    (d : Vector3) (hx : c.x.bit_count = 0) (hy : c.y.bit_count = 0)
    (hz : c.z.bit_count = 0) : decompress_vector3 s c d = .ok (d, s) := by
  simp [decompress_vector3, decompress_f32_value_zero_bits _ _ _ hx,
    decompress_f32_value_zero_bits _ _ _ hy, decompress_f32_value_zero_bits _ _ _ hz,
    Bind.bind, Except.bind]

/-- A zero-bit Transform frame under `UniformScale`: the default with the
scale broadcast from `default.scale.x` (the y/z scale sub-compressions are
never consulted). -/
theorem read_transform_zero_uniform (sqrtF : ℚ → ℚ) (s : BitStream)
    (c : TransformCompression) (d : UncompressedTransform) (flags : CompressionFlags)
    (hsc : flags.scale_type = ScaleType.uniformScale)
    (hsx : c.scale.x.bit_count = 0)
    (hrx : c.rotation.x.bit_count = 0) (hry : c.rotation.y.bit_count = 0)
    (hrz : c.rotation.z.bit_count = 0)
    (htx : c.translation.x.bit_count = 0) (hty : c.translation.y.bit_count = 0)
    (htz : c.translation.z.bit_count = 0)
    (hr : flags.has_rotation = false) :
    read_transform_compressed sqrtF s c d flags =
      .ok (⟨⟨d.scale.x, d.scale.x, d.scale.x⟩, d.rotation, d.translation,
        d.compensate_scale⟩, s) := by
  simp [read_transform_compressed, hsc, hr, Vector4.xyz,
    decompress_f32_value_zero_bits _ _ _ hsx,
    decompress_vector3_zero_bits _ _ _ hrx hry hrz,
    decompress_vector3_zero_bits _ _ _ htx hty htz, Bind.bind, Except.bind]

/-- A zero-bit Transform frame under `Scale`/`ScaleNoInheritance` equals
the default exactly. -/
theorem read_transform_zero_full_scale (sqrtF : ℚ → ℚ) (s : BitStream)
    (c : TransformCompression) (d : UncompressedTransform) (flags : CompressionFlags)
    (hsc : flags.scale_type = ScaleType.scale ∨
      flags.scale_type = ScaleType.scaleNoInheritance)
    (hsx : c.scale.x.bit_count = 0) (hsy : c.scale.y.bit_count = 0)
    (hsz : c.scale.z.bit_count = 0)
    (hrx : c.rotation.x.bit_count = 0) (hry : c.rotation.y.bit_count = 0)
    (hrz : c.rotation.z.bit_count = 0)
    (htx : c.translation.x.bit_count = 0) (hty : c.translation.y.bit_count = 0)
    (htz : c.translation.z.bit_count = 0)
    (hr : flags.has_rotation = false) :
    read_transform_compressed sqrtF s c d flags = .ok (d, s) := by
  rcases hsc with hsc | hsc <;>
    simp [read_transform_compressed, hsc, hr, Vector4.xyz,
      decompress_vector3_zero_bits _ _ _ hsx hsy hsz,
      decompress_vector3_zero_bits _ _ _ hrx hry hrz,
      decompress_vector3_zero_bits _ _ _ htx hty htz, Bind.bind, Except.bind]

/-- A zero-bit UvTransform frame under `UniformScale`: the default with
`scale_v` replaced by the broadcast `default.scale_u` (the `scale_v`
sub-compression is never consulted). -/
theorem read_uv_transform_zero_uniform (s : BitStream) (c : UvTransformCompression)
    (d : UvTransform) (flags : CompressionFlags)
    (hsc : flags.scale_type = ScaleType.uniformScale)
    (h1 : c.scale_u.bit_count = 0) (h3 : c.rotation.bit_count = 0)
    (h4 : c.translate_u.bit_count = 0) (h5 : c.translate_v.bit_count = 0) :
    read_uv_transform_compressed s c d flags =
      .ok (⟨d.scale_u, d.scale_u, d.rotation, d.translate_u, d.translate_v⟩, s) := by
  simp [read_uv_transform_compressed, hsc,
    decompress_f32_value_zero_bits _ _ _ h1, decompress_f32_value_zero_bits _ _ _ h3,
    decompress_f32_value_zero_bits _ _ _ h4, decompress_f32_value_zero_bits _ _ _ h5,
    Bind.bind, Except.bind]

/-- A zero-bit UvTransform frame under any other `ScaleType` equals the
default exactly. -/
theorem read_uv_transform_zero_other (s : BitStream) (c : UvTransformCompression)
    (d : UvTransform) (flags : CompressionFlags)
    (hsc : flags.scale_type ≠ ScaleType.uniformScale)
    (h1 : c.scale_u.bit_count = 0) (h2 : c.scale_v.bit_count = 0)
    (h3 : c.rotation.bit_count = 0) (h4 : c.translate_u.bit_count = 0)
    (h5 : c.translate_v.bit_count = 0) :
    read_uv_transform_compressed s c d flags = .ok (d, s) := by
  cases hsc2 : flags.scale_type
  case uniformScale => exact absurd hsc2 hsc
  all_goals
    simp [read_uv_transform_compressed, hsc2,
      decompress_f32_value_zero_bits _ _ _ h1, decompress_f32_value_zero_bits _ _ _ h2,
      decompress_f32_value_zero_bits _ _ _ h3, decompress_f32_value_zero_bits _ _ _ h4,
      decompress_f32_value_zero_bits _ _ _ h5, Bind.bind, Except.bind]

/-- When the computed bit count is 0 and the caller count is positive,
`read_compressed_inner` decodes exactly one frame — whatever the single
zero-bit decompression yields — ignoring the header's `frame_count`. -/
theorem read_compressed_inner_zero_collapse {K : CodecKind} (unk fc n : Nat)
    (flags : CompressionFlags) (d v : K.Val) (buf s2 : BitStream) (c : K.Comp)
    (hbc : K.bit_count c flags = 0) (hn : 0 < n)
    (hdec : K.decompress buf c d (K.get_args flags 0) = .ok (v, s2)) :
    read_compressed_inner K ⟨⟨unk, flags, some d, 0, some buf, fc⟩, c⟩ n = .ok [v] := by
  unfold read_compressed_inner
  simp [hbc, hn, decode_frames, hdec, Bind.bind, Except.bind]

/-- Claim C2 (amended): when the computed bits-per-entry is 0 and the
caller-supplied frame count is positive, exactly one frame is decoded —
the allocation is not proportional to any frame count, and the header's
`frame_count` field is never consulted, so pathological stored values such
as 0xFFFFFFFF are harmless.  The single frame is the zero-bit decode of
the default, not always the stored default itself: a Float track decodes
the default exactly; a UvTransform track decodes the default, except that
under `UniformScale` its `scale_v` is the broadcast `default.scale_u`; a
Transform track with `ScaleType` `Scale` or `ScaleNoInheritance` decodes
the default, and under `UniformScale` its scale is the broadcast
`(default.scale.x, default.scale.x, default.scale.x)`. -/
theorem claim_C2_zero_bits_collapse :
    (∀ (d : ℚ) (c : F32Compression) (flags : CompressionFlags) (unk fc : Nat)
        (buf : BitStream) (n : Nat), c.bit_count = 0 → 0 < n →
      read_compressed_inner floatCodec
        ⟨⟨unk, flags, some d, 0, some buf, fc⟩, c⟩ n = .ok [d]) ∧
    (∀ (d : UvTransform) (c : UvTransformCompression) (flags : CompressionFlags)
        (unk fc : Nat) (buf : BitStream) (n : Nat),
      c.bit_count flags = 0 → 0 < n → flags.scale_type = ScaleType.uniformScale →
      read_compressed_inner uvTransformCodec
        ⟨⟨unk, flags, some d, 0, some buf, fc⟩, c⟩ n =
        .ok [⟨d.scale_u, d.scale_u, d.rotation, d.translate_u, d.translate_v⟩]) ∧
    (∀ (d : UvTransform) (c : UvTransformCompression) (flags : CompressionFlags)
        (unk fc : Nat) (buf : BitStream) (n : Nat),
      c.bit_count flags = 0 → 0 < n → flags.scale_type ≠ ScaleType.uniformScale →
      read_compressed_inner uvTransformCodec
        ⟨⟨unk, flags, some d, 0, some buf, fc⟩, c⟩ n = .ok [d]) ∧
    (∀ (sqrtF : ℚ → ℚ) (d : UncompressedTransform) (c : TransformCompression)
        (flags : CompressionFlags) (unk fc : Nat) (buf : BitStream) (n : Nat),
      c.bit_count flags = 0 → 0 < n → flags.scale_type = ScaleType.uniformScale →
      read_compressed_inner (transformCodec sqrtF)
        ⟨⟨unk, flags, some d, 0, some buf, fc⟩, c⟩ n =
        .ok [⟨⟨d.scale.x, d.scale.x, d.scale.x⟩, d.rotation, d.translation,
          d.compensate_scale⟩]) ∧
    (∀ (sqrtF : ℚ → ℚ) (d : UncompressedTransform) (c : TransformCompression)
        (flags : CompressionFlags) (unk fc : Nat) (buf : BitStream) (n : Nat),
      c.bit_count flags = 0 → 0 < n →
      (flags.scale_type = ScaleType.scale ∨
        flags.scale_type = ScaleType.scaleNoInheritance) →
      read_compressed_inner (transformCodec sqrtF)
        ⟨⟨unk, flags, some d, 0, some buf, fc⟩, c⟩ n = .ok [d]) := by
  refine ⟨?_, ?_, ?_, ?_, ?_⟩
  · intro d c flags unk fc buf n hbc hn
    exact @read_compressed_inner_zero_collapse floatCodec unk fc n flags d d buf buf c
      hbc hn (decompress_f32_value_zero_bits buf c d hbc)
  · intro d c flags unk fc buf n hbc hn hsc
    have hsum : c.scale_u.bit_count + c.scale_v.bit_count + c.rotation.bit_count
        + c.translate_u.bit_count + c.translate_v.bit_count = 0 := hbc
    have h1 : c.scale_u.bit_count = 0 := by omega
    have h3 : c.rotation.bit_count = 0 := by omega
    have h4 : c.translate_u.bit_count = 0 := by omega
    have h5 : c.translate_v.bit_count = 0 := by omega
    exact @read_compressed_inner_zero_collapse uvTransformCodec unk fc n flags d _
      buf buf c hbc hn (read_uv_transform_zero_uniform buf c d flags hsc h1 h3 h4 h5)
  · intro d c flags unk fc buf n hbc hn hsc
    have hsum : c.scale_u.bit_count + c.scale_v.bit_count + c.rotation.bit_count
        + c.translate_u.bit_count + c.translate_v.bit_count = 0 := hbc
    have h1 : c.scale_u.bit_count = 0 := by omega
    have h2 : c.scale_v.bit_count = 0 := by omega
    have h3 : c.rotation.bit_count = 0 := by omega
    have h4 : c.translate_u.bit_count = 0 := by omega
    have h5 : c.translate_v.bit_count = 0 := by omega
    exact @read_compressed_inner_zero_collapse uvTransformCodec unk fc n flags d d
      buf buf c hbc hn (read_uv_transform_zero_other buf c d flags hsc h1 h2 h3 h4 h5)
  · intro sqrtF d c flags unk fc buf n hbc hn hsc
    cases hr : flags.has_rotation
    case true =>
      have hbc2 := hbc
      simp only [TransformCompression.bit_count, Vector3Compression.bit_count,
        hsc, hr, if_true] at hbc2
      omega
    case false =>
      have hbc2 := hbc
      simp only [TransformCompression.bit_count, Vector3Compression.bit_count,
        hsc, hr, if_false] at hbc2
      have hsx : c.scale.x.bit_count = 0 := by omega
      have hrx : c.rotation.x.bit_count = 0 := by omega
      have hry : c.rotation.y.bit_count = 0 := by omega
      have hrz : c.rotation.z.bit_count = 0 := by omega
      have htx : c.translation.x.bit_count = 0 := by omega
      have hty : c.translation.y.bit_count = 0 := by omega
      have htz : c.translation.z.bit_count = 0 := by omega
      exact @read_compressed_inner_zero_collapse (transformCodec sqrtF) unk fc n flags
        d _ buf buf c hbc hn
        (read_transform_zero_uniform sqrtF buf c d flags hsc hsx hrx hry hrz
          htx hty htz hr)
  · intro sqrtF d c flags unk fc buf n hbc hn hsc
    cases hr : flags.has_rotation
    case true =>
      have hbc2 := hbc
      rcases hsc with hsc | hsc <;>
        · simp only [TransformCompression.bit_count, Vector3Compression.bit_count,
            hsc, hr, if_true] at hbc2
          omega
    case false =>
      have hbc2 := hbc
      have hzero : c.scale.x.bit_count = 0 ∧ c.scale.y.bit_count = 0 ∧
          c.scale.z.bit_count = 0 ∧ c.rotation.x.bit_count = 0 ∧
          c.rotation.y.bit_count = 0 ∧ c.rotation.z.bit_count = 0 ∧
          c.translation.x.bit_count = 0 ∧ c.translation.y.bit_count = 0 ∧
          c.translation.z.bit_count = 0 := by
        rcases hsc with hsc | hsc <;>
          · simp only [TransformCompression.bit_count, Vector3Compression.bit_count,
              hsc, hr, if_false] at hbc2
            omega
      obtain ⟨hsx, hsy, hsz, hrx, hry, hrz, htx, hty, htz⟩ := hzero
      exact @read_compressed_inner_zero_collapse (transformCodec sqrtF) unk fc n flags
        d d buf buf c hbc hn
        (read_transform_zero_full_scale sqrtF buf c d flags hsc hsx hsy hsz
          hrx hry hrz htx hty htz hr)

/-- Witness for the amended claim C2: concrete zero-bit tracks for every
covered case.  The float track stores `frame_count = 0xFFFFFFFF` and still
decodes `[2/5]` with caller count 3; the `UniformScale` UvTransform and
Transform tracks decode one frame whose scale deviates from the stored
default by broadcast (`scale_v = 1 ≠ 2`, scale `(1,1,1) ≠ (1,2,3)`); the
non-uniform tracks reproduce the default exactly. -/
theorem claim_C2_witness :
    ((⟨(2 : ℚ) / 5, 2 / 5, 0⟩ : F32Compression).bit_count = 0 ∧ 0 < 3 ∧
      read_compressed_inner floatCodec
        ⟨⟨4, plainFlags, some ((2 : ℚ) / 5), 0, some [], 4294967295⟩,
          ⟨2 / 5, 2 / 5, 0⟩⟩ 3 = .ok [(2 : ℚ) / 5]) ∧
    (read_compressed_inner uvTransformCodec
      ⟨⟨4, uniformFlags, some ⟨1, 2, 0, 0, 0⟩, 0, some [], 7⟩, zeroUvCompression⟩ 1 =
      .ok [⟨1, 1, 0, 0, 0⟩]) ∧
    (read_compressed_inner uvTransformCodec
      ⟨⟨4, plainFlags, some ⟨1, 2, 3, 4, 5⟩, 0, some [], 7⟩, zeroUvCompression⟩ 1 =
      .ok [⟨1, 2, 3, 4, 5⟩]) ∧
    (read_compressed_inner (transformCodec (fun _ => 0))
      ⟨⟨4, uniformFlags, some skewedDefaultTransform, 0, some [], 7⟩,
        zeroTransformCompression⟩ 1 =
      .ok [⟨⟨1, 1, 1⟩, ⟨0, 0, 0, 1⟩, ⟨4, 5, 6⟩, 1⟩]) ∧
    (read_compressed_inner (transformCodec (fun _ => 0))
      ⟨⟨4, fullScaleFlags, some skewedDefaultTransform, 0, some [], 7⟩,
        zeroTransformCompression⟩ 1 = .ok [skewedDefaultTransform]) :=
  ⟨⟨rfl, by decide,
      claim_C2_zero_bits_collapse.1 ((2 : ℚ) / 5) ⟨2 / 5, 2 / 5, 0⟩ plainFlags
        4 4294967295 [] 3 rfl (by decide)⟩,
    claim_C2_zero_bits_collapse.2.1 ⟨1, 2, 0, 0, 0⟩ zeroUvCompression uniformFlags
      4 7 [] 1 rfl (by decide) rfl,
    claim_C2_zero_bits_collapse.2.2.1 ⟨1, 2, 3, 4, 5⟩ zeroUvCompression plainFlags
      4 7 [] 1 rfl (by decide) (by decide),
    claim_C2_zero_bits_collapse.2.2.2.1 (fun _ => 0) skewedDefaultTransform
      zeroTransformCompression uniformFlags 4 7 [] 1 rfl (by decide) rfl,
    claim_C2_zero_bits_collapse.2.2.2.2 (fun _ => 0) skewedDefaultTransform
      zeroTransformCompression fullScaleFlags 4 7 [] 1 rfl (by decide) (Or.inl rfl)⟩

/-! ## Claim C4 -/

/-- Claim C4 counterexample: a track with a null default-data pointer (and a
valid compressed-data pointer) read with a frame count of 0 succeeds with
`Ok([])` instead of failing with `MalformedCompressionHeader`: the null
default pointer is only noticed inside the frame-decoding loop. -/
theorem claim_C4_counterexample :
    floatTrackNullDefault.header.default_data = Option.none ∧
    read_compressed_inner floatCodec floatTrackNullDefault 0 = .ok [] :=
  ⟨rfl, rfl⟩

/-- Claim C4 (amended): after the bits-per-entry check passes, a null
compressed-data pointer always fails with `MalformedCompressionHeader`; a
null default-data pointer fails with `MalformedCompressionHeader` whenever
at least one frame is decoded (any positive caller frame count), the error
arising in the frame loop rather than at header parse; and for Transform
tracks a null default-data pointer always fails, because
`read_compressed_transforms` dereferences the default for
`compensate_scale` first.  In every failing case no values are produced. -/
theorem claim_C4_null_pointer_errors :
    (∀ (K : CodecKind) (data : CompressedTrackData K) (n : Nat),
      data.header.bits_per_entry = K.bit_count data.compression data.header.flags →
      data.header.compressed_data = Option.none →
      read_compressed_inner K data n = .error .malformedCompressionHeader) ∧
    (∀ (K : CodecKind) (data : CompressedTrackData K) (n : Nat) (buf : BitStream),
      data.header.bits_per_entry = K.bit_count data.compression data.header.flags →
      data.header.compressed_data = some buf →
      data.header.default_data = Option.none →
      0 < n →
      read_compressed_inner K data n = .error .malformedCompressionHeader) ∧
    (∀ (sqrtF : ℚ → ℚ) (data : CompressedTrackData (transformCodec sqrtF)) (n : Nat),
      data.header.default_data = Option.none →
      read_compressed_transforms sqrtF data n = .error .malformedCompressionHeader) := by
  refine ⟨?_, ?_, ?_⟩
  · intro K data n hbits hcd
    unfold read_compressed_inner
    simp [hbits, hcd]
  · intro K data n buf hbits hcd hdd hn
    unfold read_compressed_inner
    simp only [hbits, hcd, hdd, ne_eq, not_true_eq_false, if_false, ite_not]
    have hpos : ∀ (args : K.Args) (m : Nat), 0 < m →
        decode_frames K data.compression Option.none args m buf =
          .error .malformedCompressionHeader := by
      intro args m hm
      cases m with
      | zero => exact absurd hm (by simp)
      | succ k => simp [decode_frames]
    by_cases hz : K.bit_count data.compression data.header.flags = 0 ∧ 0 < n <;>
      simp [hz, hpos _ 1 (by simp), hpos _ n hn, Bind.bind, Except.bind]
  · intro sqrtF data n hdd
    unfold read_compressed_transforms
    simp [hdd]

/-- Witness for the amended claim C4: a null compressed-data pointer fails
(first conjunct) and a null default-data pointer with one requested frame
fails (second conjunct). -/
theorem claim_C4_witness :
    read_compressed_inner floatCodec
      ⟨⟨4, plainFlags, some (0 : ℚ), 0, Option.none, 1⟩, ⟨0, 0, 0⟩⟩ 1 =
      .error .malformedCompressionHeader ∧
    read_compressed_inner floatCodec floatTrackNullDefault 1 =
      .error .malformedCompressionHeader :=
  ⟨claim_C4_null_pointer_errors.1 floatCodec
      ⟨⟨4, plainFlags, some (0 : ℚ), 0, Option.none, 1⟩, ⟨0, 0, 0⟩⟩ 1 rfl rfl,
    claim_C4_null_pointer_errors.2.1 floatCodec floatTrackNullDefault 1 [] rfl rfl rfl
      (by decide)⟩

/-! ## Claim C9 -/

/-- Claim C9: decoding is claimed never to panic on untrusted input, but the
rotation sign-bit read in `calculate_rotation_w` is an `unwrap()`: on a
compressed Transform track with `has_rotation` set, all component bit
counts 0 (so the header's `bits_per_entry = 1` passes the check) and an
empty bitstream, the bit read fails and the `unwrap` panics (modelled by
`DecodeError.panicked`), for every choice of the abstract square root. -/
theorem claim_C9_truncated_sign_bit_panics (sqrtF : ℚ → ℚ) :
    read_compressed_inner (transformCodec sqrtF) (truncatedTransformTrack sqrtF) 1 =
      .error .panicked :=
  rfl

/-! ## Claim C6 -/

/-- Claim C6: when `has_rotation` is set, after decoding the rotation xyz
components the w component equals `± sqrt (max 0 (1 - x² - y² - z²))` — the
discriminant clamp sends every negative discriminant to `w = 0` — with the
sign taken from the per-frame sign bit; when `has_rotation` is not set, w
is taken from `default.rotation.w`.  The abstract `f32::sqrt` only needs to
send 0 to 0. -/
theorem claim_C6_rotation_w :
    (∀ (sqrtF : ℚ → ℚ), sqrtF 0 = 0 →
      ∀ (b : Bool) (rest : BitStream) (r : Vector3),
        calculate_rotation_w sqrtF (b :: rest) r =
          .ok ((if b then (-1 : ℚ) else 1) *
            sqrtF (max 0 (1 - (r.x * r.x + r.y * r.y + r.z * r.z))), rest)) ∧
    (∀ (sqrtF : ℚ → ℚ) (s : BitStream) (c : TransformCompression)
        (d : UncompressedTransform) (flags : CompressionFlags)
        (t : UncompressedTransform) (s1 : BitStream),
      flags.has_rotation = false →
      read_transform_compressed sqrtF s c d flags = .ok (t, s1) →
      t.rotation.w = d.rotation.w) := by
  constructor
  · intro sqrtF hs b rest r
    unfold calculate_rotation_w
    by_cases hw : 1 - (r.x * r.x + r.y * r.y + r.z * r.z) < 0
    · have hmax : max 0 (1 - (r.x * r.x + r.y * r.y + r.z * r.z)) = 0 :=
        max_eq_left hw.le
      cases b <;> simp [hw, hmax, hs]
    · have hmax : max 0 (1 - (r.x * r.x + r.y * r.y + r.z * r.z)) =
          1 - (r.x * r.x + r.y * r.y + r.z * r.z) :=
        max_eq_right (not_lt.mp hw)
      cases b <;> simp [hw, hmax, one_mul, neg_one_mul]
  · intro sqrtF s c d flags t s1 hrot h
    unfold read_transform_compressed at h
    rw [hrot] at h
    simp only [Bool.false_eq_true, if_false] at h
    split at h
    · obtain ⟨⟨u, sU⟩, -, h⟩ := bind_ok_elim h
      obtain ⟨⟨sc3, sA⟩, -, h⟩ := bind_ok_elim h
      obtain ⟨⟨xyz, sB⟩, -, h⟩ := bind_ok_elim h
      obtain ⟨⟨tr, sC⟩, -, h⟩ := bind_ok_elim h
      obtain ⟨⟨w4, sD⟩, hw, h⟩ := bind_ok_elim h
      injection hw with hw
      injection h with h
      injection h with ht hs
      have hw1 : d.rotation.w = w4 := congrArg Prod.fst hw
      rw [← ht]
      exact hw1.symm
    · obtain ⟨⟨sc3, sA⟩, -, h⟩ := bind_ok_elim h
      obtain ⟨⟨xyz, sB⟩, -, h⟩ := bind_ok_elim h
      obtain ⟨⟨tr, sC⟩, -, h⟩ := bind_ok_elim h
      obtain ⟨⟨w4, sD⟩, hw, h⟩ := bind_ok_elim h
      injection hw with hw
      injection h with h
      injection h with ht hs
      have hw1 : d.rotation.w = w4 := congrArg Prod.fst hw
      rw [← ht]
      exact hw1.symm

/-- Witness for claim C6: a sign bit of 1 with xyz = (1,0,0) yields
`w = -1 · sqrt 0`; and with `has_rotation` clear the default's w (here 1)
is reproduced. -/
theorem claim_C6_witness :
    calculate_rotation_w (fun _ => (0 : ℚ)) [true] ⟨1, 0, 0⟩ =
      .ok ((if true then (-1 : ℚ) else 1) *
        (fun _ => (0 : ℚ)) (max 0 (1 - ((1 : ℚ) * 1 + (0 : ℚ) * 0 + (0 : ℚ) * 0))), []) ∧
    plainFlags.has_rotation = false ∧
    exampleDefaultTransform.rotation.w = exampleDefaultTransform.rotation.w :=
  ⟨claim_C6_rotation_w.1 (fun _ => 0) rfl true [] ⟨1, 0, 0⟩, rfl,
    claim_C6_rotation_w.2 (fun _ => 0) [] zeroTransformCompression
      exampleDefaultTransform plainFlags exampleDefaultTransform [] rfl rfl⟩

/-! ## Claim C7 -/

/-- A successful `decode_frames` with an everywhere-`P` decompressor yields
only values satisfying `P`. -/
theorem decode_frames_mem {K : CodecKind} {P : K.Val → Prop} {comp : K.Comp}
    {dflt : Option K.Val} {args : K.Args}
    (h : ∀ (s : BitStream) (d : K.Val) (v : K.Val) (s1 : BitStream),
      K.decompress s comp d args = .ok (v, s1) → P v) :
    ∀ (n : Nat) (s : BitStream) (vs : List K.Val) (s1 : BitStream),
      decode_frames K comp dflt args n s = .ok (vs, s1) → ∀ v ∈ vs, P v := by
  cases dflt with
  | none =>
    intro n s vs s1 hd
    cases n with
    | zero =>
      simp only [decode_frames] at hd
      injection hd with hd
      have hvs : vs = [] := (congrArg Prod.fst hd).symm
      subst hvs
      simp
    | succ k => simp [decode_frames] at hd
  | some d0 =>
    intro n
    induction n with
    | zero =>
      intro s vs s1 hd
      simp only [decode_frames] at hd
      injection hd with hd
      have hvs : vs = [] := (congrArg Prod.fst hd).symm
      subst hvs
      simp
    | succ k ih =>
      intro s vs s1 hd
      simp only [decode_frames] at hd
      obtain ⟨⟨v0, sA⟩, hv0, hd⟩ := bind_ok_elim hd
      obtain ⟨⟨vs0, sB⟩, hvs0, hd⟩ := bind_ok_elim hd
      injection hd with hd
      have hvs : vs = v0 :: vs0 := (congrArg Prod.fst hd).symm
      subst hvs
      intro v hv
      rcases List.mem_cons.mp hv with rfl | hv2
      · exact h s d0 v sA hv0
      · exact ih sA vs0 sB hvs0 v hv2

/-- A successful `read_compressed_inner` with an everywhere-`P`
decompressor yields only values satisfying `P`. -/
theorem read_compressed_inner_mem {K : CodecKind} {P : K.Val → Prop}
    (data : CompressedTrackData K) (n : Nat) (vs : List K.Val)
    (h : ∀ (s : BitStream) (d : K.Val) (v : K.Val) (s1 : BitStream),
      K.decompress s data.compression d
        (K.get_args data.header.flags data.header.bits_per_entry) = .ok (v, s1) → P v)
    (hres : read_compressed_inner K data n = .ok vs) :
    ∀ v ∈ vs, P v := by
  unfold read_compressed_inner at hres
  by_cases hbits :
    data.header.bits_per_entry = K.bit_count data.compression data.header.flags
  · simp only [hbits, ne_eq, not_true_eq_false, if_false] at hres
    simp only [hbits] at h
    split at hres
    · exact absurd hres (by simp)
    · obtain ⟨⟨values, sEnd⟩, hdf, hres⟩ := bind_ok_elim hres
      injection hres with hres
      subst hres
      exact decode_frames_mem h _ _ _ _ hdf
  · simp only [ne_eq, hbits, not_false_eq_true, if_true] at hres
    exact absurd hres (by simp)

/-- One decoded Transform frame under `UniformScale` has equal scale
components: one value is decompressed and broadcast. -/
theorem uniform_transform_frame (sqrtF : ℚ → ℚ) (s : BitStream)
    (c : TransformCompression) (d : UncompressedTransform) (flags : CompressionFlags)
    (t : UncompressedTransform) (s1 : BitStream)
    (hst : flags.scale_type = ScaleType.uniformScale)
    (h : read_transform_compressed sqrtF s c d flags = .ok (t, s1)) :
    t.scale.x = t.scale.y ∧ t.scale.y = t.scale.z := by
  unfold read_transform_compressed at h
  rw [hst] at h
  obtain ⟨⟨u, sU⟩, -, h⟩ := bind_ok_elim h
  obtain ⟨⟨sc3, sA⟩, hsc, h⟩ := bind_ok_elim h
  injection hsc with hsc
  injection hsc with e1 e2
  subst e1
  obtain ⟨⟨xyz, sB⟩, -, h⟩ := bind_ok_elim h
  obtain ⟨⟨tr, sC⟩, -, h⟩ := bind_ok_elim h
  cases hr : flags.has_rotation <;> rw [hr] at h <;>
    · obtain ⟨⟨w4, sD⟩, -, h⟩ := bind_ok_elim h
      injection h with h
      injection h with ht hs
      rw [← ht]
      exact ⟨rfl, rfl⟩

/-- One decoded UvTransform frame under `UniformScale` has
`scale_u = scale_v`: one value is decompressed and broadcast to both. -/
theorem uniform_uv_frame (s : BitStream) (c : UvTransformCompression)
    (d : UvTransform) (flags : CompressionFlags) (t : UvTransform) (s1 : BitStream)
    (hst : flags.scale_type = ScaleType.uniformScale)
    (h : read_uv_transform_compressed s c d flags = .ok (t, s1)) :
    t.scale_u = t.scale_v := by
  unfold read_uv_transform_compressed at h
  rw [hst] at h
  obtain ⟨⟨u, sU⟩, -, h⟩ := bind_ok_elim h
  obtain ⟨⟨sc, sA⟩, hsc, h⟩ := bind_ok_elim h
  injection hsc with hsc
  injection hsc with e1 e2
  subst e1
  obtain ⟨⟨rot, sB⟩, -, h⟩ := bind_ok_elim h
  obtain ⟨⟨tu, sC⟩, -, h⟩ := bind_ok_elim h
  obtain ⟨⟨tv, sD⟩, -, h⟩ := bind_ok_elim h
  injection h with h
  injection h with ht hs
  rw [← ht]

/-- Claim C7: every frame of a compressed Transform track decoded with
`ScaleType::UniformScale` satisfies `scale.x = scale.y = scale.z` (exactly
one scale float is read and broadcast), and likewise every frame of a
compressed UvTransform track decoded with `UniformScale` satisfies
`scale_u = scale_v`. -/
theorem claim_C7_uniform_scale_broadcast :
    (∀ (sqrtF : ℚ → ℚ) (data : CompressedTrackData (transformCodec sqrtF)) (n : Nat)
        (vs : List UncompressedTransform),
      data.header.flags.scale_type = ScaleType.uniformScale →
      read_compressed_inner (transformCodec sqrtF) data n = .ok vs →
      ∀ t ∈ vs, t.scale.x = t.scale.y ∧ t.scale.y = t.scale.z) ∧
    (∀ (data : CompressedTrackData uvTransformCodec) (n : Nat) (vs : List UvTransform),
      data.header.flags.scale_type = ScaleType.uniformScale →
      read_compressed_inner uvTransformCodec data n = .ok vs →
      ∀ t ∈ vs, t.scale_u = t.scale_v) := by
  constructor
  · intro sqrtF data n vs hst hres
    exact read_compressed_inner_mem data n vs
      (fun s d v s1 h => uniform_transform_frame sqrtF s data.compression d
        data.header.flags v s1 hst h) hres
  · intro data n vs hst hres
    exact read_compressed_inner_mem data n vs
      (fun s d v s1 h => uniform_uv_frame s data.compression d
        data.header.flags v s1 hst h) hres

/-- Witness for claim C7: concrete one-frame `UniformScale` Transform and
UvTransform tracks decode to frames with equal scale components. -/
theorem claim_C7_witness :
    (uniformScaleTransformTrack (fun _ => 0)).header.flags.scale_type =
      ScaleType.uniformScale ∧
    read_compressed_inner (transformCodec (fun _ => 0))
      (uniformScaleTransformTrack (fun _ => 0)) 1 = .ok [exampleDefaultTransform] ∧
    (exampleDefaultTransform.scale.x = exampleDefaultTransform.scale.y ∧
      exampleDefaultTransform.scale.y = exampleDefaultTransform.scale.z) ∧
    read_compressed_inner uvTransformCodec uniformScaleUvTrack 1 =
      .ok [⟨1, 1, 0, 0, 0⟩] ∧
    ((⟨1, 1, 0, 0, 0⟩ : UvTransform).scale_u = (⟨1, 1, 0, 0, 0⟩ : UvTransform).scale_v) := by
  have h1 : read_compressed_inner (transformCodec (fun _ => 0))
      (uniformScaleTransformTrack (fun _ => 0)) 1 = .ok [exampleDefaultTransform] := by rfl
  have h2 : read_compressed_inner uvTransformCodec uniformScaleUvTrack 1 =
      .ok [⟨1, 1, 0, 0, 0⟩] := by rfl
  refine ⟨rfl, h1, ?_, h2, ?_⟩
  · exact claim_C7_uniform_scale_broadcast.1 (fun _ => 0)
      (uniformScaleTransformTrack (fun _ => 0)) 1 _ rfl h1
      exampleDefaultTransform (by simp)
  · exact claim_C7_uniform_scale_broadcast.2 uniformScaleUvTrack 1 _ rfl h2
      ⟨1, 1, 0, 0, 0⟩ (by simp)

/-! ## Claim C8 -/

/-- A left fold of `min` is a lower bound for its initial value. -/
theorem foldl_min_le_init {α : Type} [LinearOrder α] (l : List α) :
    ∀ a : α, l.foldl min a ≤ a := by
  induction l with
  | nil => intro a; exact le_refl a
  | cons b t ih => intro a; exact le_trans (ih (min a b)) (min_le_left a b)

/-- A left fold of `min` is a lower bound for every list element. -/
theorem foldl_min_le_mem {α : Type} [LinearOrder α] (l : List α) :
    ∀ (a : α) (x : α), x ∈ l → l.foldl min a ≤ x := by
  induction l with
  | nil => intro a x hx; cases hx
  | cons b t ih =>
    intro a x hx
    rcases List.mem_cons.mp hx with rfl | hx2
    · exact le_trans (foldl_min_le_init t (min a x)) (min_le_right a x)
    · exact ih (min a b) x hx2

/-- A left fold of `min` is the initial value or a list element. -/
theorem foldl_min_mem {α : Type} [LinearOrder α] (l : List α) :
    ∀ a : α, l.foldl min a = a ∨ l.foldl min a ∈ l := by
  induction l with
  | nil => intro a; exact Or.inl rfl
  | cons b t ih =>
    intro a
    rcases ih (min a b) with h | h
    · rcases min_choice a b with hm | hm
      · exact Or.inl (h.trans hm)
      · exact Or.inr (List.mem_cons.mpr (Or.inl (h.trans hm)))
    · exact Or.inr (List.mem_cons.mpr (Or.inr h))

/-- A left fold of `max` is an upper bound for its initial value. -/
theorem foldl_max_ge_init {α : Type} [LinearOrder α] (l : List α) :
    ∀ a : α, a ≤ l.foldl max a := by
  induction l with
  | nil => intro a; exact le_refl a
  | cons b t ih => intro a; exact le_trans (le_max_left a b) (ih (max a b))

/-- A left fold of `max` is an upper bound for every list element. -/
theorem foldl_max_ge_mem {α : Type} [LinearOrder α] (l : List α) :
    ∀ (a : α) (x : α), x ∈ l → x ≤ l.foldl max a := by
  induction l with
  | nil => intro a x hx; cases hx
  | cons b t ih =>
    intro a x hx
    rcases List.mem_cons.mp hx with rfl | hx2
    · exact le_trans (le_max_right a x) (foldl_max_ge_init t (max a x))
    · exact ih (max a b) x hx2

/-- A left fold of `max` is the initial value or a list element. -/
theorem foldl_max_mem {α : Type} [LinearOrder α] (l : List α) :
    ∀ a : α, l.foldl max a = a ∨ l.foldl max a ∈ l := by
  induction l with
  | nil => intro a; exact Or.inl rfl
  | cons b t ih =>
    intro a
    rcases ih (max a b) with h | h
    · rcases max_choice a b with hm | hm
      · exact Or.inl (h.trans hm)
      · exact Or.inr (List.mem_cons.mpr (Or.inl (h.trans hm)))
    · exact Or.inr (List.mem_cons.mpr (Or.inr h))

/-- Claim C8 counterexample: the `PatternIndex` (u32) writer does not
follow the claimed rule.  For the constant input `[5, 5]` the observed
`min = max = 5`, yet the emitted descriptor has `bit_count = 24` (not 0)
and the chosen default is `0` (not the observed min `5`). -/
theorem claim_C8_counterexample :
    find_min_u32 [5, 5] = 5 ∧ find_max_u32 [5, 5] = 5 ∧
    (u32_get_default_and_compression [5, 5]).2.bit_count = 24 ∧
    (u32_get_default_and_compression [5, 5]).1 = 0 :=
  ⟨rfl, rfl, rfl, rfl⟩

/-- Claim C8 (amended): for float components the canonical writer derives
`(min, max)` as the true elementwise min/max over the input frames (the
fold is attained and bounds every frame), sets `bit_count = 24` iff
`min ≠ max` and 0 otherwise, and picks the per-component default equal to
the observed min — with `compensate_scale` in the Transform default taken
from the input flag.  The `PatternIndex` writer deviates: `bit_count` is
always 24 and the default is always 0 (see the counterexample). -/
theorem claim_C8_writer_ranges :
    (∀ mn mx : ℚ, F32Compression.from_range mn mx =
      ⟨mn, mx, if mn = mx then 0 else 24⟩) ∧
    (∀ l : List ℚ, l ≠ [] → find_min_f32 l ∈ l ∧ ∀ x ∈ l, find_min_f32 l ≤ x) ∧
    (∀ l : List ℚ, l ≠ [] → find_max_f32 l ∈ l ∧ ∀ x ∈ l, x ≤ find_max_f32 l) ∧
    (∀ l : List ℚ, f32_get_default_and_compression l =
      (find_min_f32 l, F32Compression.from_range (find_min_f32 l) (find_max_f32 l))) ∧
    (∀ (values : List UncompressedTransform) (cs : Bool),
      UncompressedTransform.get_default_and_compression values cs =
        (⟨find_min_vector3 (values.map (·.scale)),
            find_min_vector4 (values.map (·.rotation)),
            find_min_vector3 (values.map (·.translation)),
            if cs then 1 else 0⟩,
          ⟨Vector3Compression.from_range (find_min_vector3 (values.map (·.scale)))
              (find_max_vector3 (values.map (·.scale))),
            Vector3Compression.from_range
              (find_min_vector4 (values.map (·.rotation))).xyz
              (find_max_vector4 (values.map (·.rotation))).xyz,
            Vector3Compression.from_range
              (find_min_vector3 (values.map (·.translation)))
              (find_max_vector3 (values.map (·.translation)))⟩)) := by
  refine ⟨fun mn mx => rfl, ?_, ?_, fun l => rfl, fun values cs => rfl⟩
  · intro l hl
    match l with
    | [] => exact absurd rfl hl
    | v :: rest =>
      constructor
      · rcases foldl_min_mem rest v with h | h
        · exact List.mem_cons.mpr (Or.inl h)
        · exact List.mem_cons.mpr (Or.inr h)
      · intro x hx
        rcases List.mem_cons.mp hx with rfl | hx2
        · exact foldl_min_le_init rest x
        · exact foldl_min_le_mem rest v x hx2
  · intro l hl
    match l with
    | [] => exact absurd rfl hl
    | v :: rest =>
      constructor
      · rcases foldl_max_mem rest v with h | h
        · exact List.mem_cons.mpr (Or.inl h)
        · exact List.mem_cons.mpr (Or.inr h)
      · intro x hx
        rcases List.mem_cons.mp hx with rfl | hx2
        · exact foldl_max_ge_init rest x
        · exact foldl_max_ge_mem rest v x hx2

/-- Witness for the amended claim C8: on the concrete frames `[3, 1]` the
derived min is `1 ∈ [3, 1]`, a lower bound, and the derived max is
`3 ∈ [3, 1]`, an upper bound. -/
theorem claim_C8_witness :
    (([3, 1] : List ℚ) ≠ []) ∧
    (find_min_f32 [3, 1] ∈ ([3, 1] : List ℚ) ∧
      ∀ x ∈ ([3, 1] : List ℚ), find_min_f32 [3, 1] ≤ x) ∧
    (find_max_f32 [3, 1] ∈ ([3, 1] : List ℚ) ∧
      ∀ x ∈ ([3, 1] : List ℚ), x ≤ find_max_f32 [3, 1]) :=
  ⟨by simp, claim_C8_writer_ranges.2.1 [3, 1] (by simp),
    claim_C8_writer_ranges.2.2.1 [3, 1] (by simp)⟩

/-! ## Claim C1 -/

/-- Parsing undoes encoding for one 32-bit little-endian field. -/
theorem decode_encode_u32 (n : Nat) (r : List Nat) (h : n < 2 ^ 32) :
    decode_u32 (encode_u32 n ++ r) = some (n, r) := by
  simp only [encode_u32, decode_u32, List.cons_append, List.nil_append,
    Option.some.injEq, Prod.mk.injEq, and_true]
  have e : (2 : Nat) ^ 32 = 4294967296 := by norm_num
  rw [e] at h ⊢
  omega

/-- Parsing undoes encoding for a `Vector3` record. -/
theorem decode_encode_vector3 (v : Vector3P) (r : List Nat) (h : v.wf) :
    decode_vector3 (encode_vector3 v ++ r) = some (v, r) := by
  obtain ⟨hx, hy, hz⟩ := h
  have hx2 : v.x < 2 ^ 32 := hx
  have hy2 : v.y < 2 ^ 32 := hy
  have hz2 : v.z < 2 ^ 32 := hz
  simp [decode_vector3, encode_vector3, List.append_assoc,
    decode_encode_u32 _ _ hx2, decode_encode_u32 _ _ hy2, decode_encode_u32 _ _ hz2]

/-- Parsing undoes encoding for a `Vector4` record. -/
theorem decode_encode_vector4 (v : Vector4P) (r : List Nat) (h : v.wf) :
    decode_vector4 (encode_vector4 v ++ r) = some (v, r) := by
  obtain ⟨hx, hy, hz, hw⟩ := h
  have hx2 : v.x < 2 ^ 32 := hx
  have hy2 : v.y < 2 ^ 32 := hy
  have hz2 : v.z < 2 ^ 32 := hz
  have hw2 : v.w < 2 ^ 32 := hw
  simp [decode_vector4, encode_vector4, List.append_assoc,
    decode_encode_u32 _ _ hx2, decode_encode_u32 _ _ hy2, decode_encode_u32 _ _ hz2,
    decode_encode_u32 _ _ hw2]

/-- Parsing undoes encoding for an `UncompressedTransform` record. -/
theorem decode_encode_uncompressed_transform (t : UncompressedTransformP)
    (r : List Nat) (h : t.wf) :
    decode_uncompressed_transform (encode_uncompressed_transform t ++ r) =
      some (t, r) := by
  obtain ⟨hs, hr, ht2, hcs⟩ := h
  have hcs2 : t.compensate_scale < 2 ^ 32 := hcs
  simp [decode_uncompressed_transform, encode_uncompressed_transform, List.append_assoc,
    decode_encode_vector3 _ _ hs, decode_encode_vector4 _ _ hr,
    decode_encode_vector3 _ _ ht2, decode_encode_u32 _ _ hcs2]

/-- Parsing undoes encoding for a `UvTransform` record. -/
theorem decode_encode_uv_transform (t : UvTransformP) (r : List Nat) (h : t.wf) :
    decode_uv_transform (encode_uv_transform t ++ r) = some (t, r) := by
  obtain ⟨h1, h2, h3, h4, h5⟩ := h
  have g1 : t.scale_u < 2 ^ 32 := h1
  have g2 : t.scale_v < 2 ^ 32 := h2
  have g3 : t.rotation < 2 ^ 32 := h3
  have g4 : t.translate_u < 2 ^ 32 := h4
  have g5 : t.translate_v < 2 ^ 32 := h5
  simp [decode_uv_transform, encode_uv_transform, List.append_assoc,
    decode_encode_u32 _ _ g1, decode_encode_u32 _ _ g2, decode_encode_u32 _ _ g3,
    decode_encode_u32 _ _ g4, decode_encode_u32 _ _ g5]

/-- `read_uncompressed` undoes record-wise encoding of a whole frame
sequence, leaving the trailing bytes untouched. -/
theorem read_uncompressed_encode {α : Type} (dec : List Nat → Option (α × List Nat))
    (enc : α → List Nat) (l : List α) :
    ∀ rest : List Nat, (∀ x ∈ l, ∀ r, dec (enc x ++ r) = some (x, r)) →
      read_uncompressed dec l.length ((l.map enc).flatten ++ rest) = some (l, rest) := by
  induction l with
  | nil => intro rest h; simp [read_uncompressed]
  | cons a t ih =>
    intro rest h
    have ha := h a (List.mem_cons_self a t)
    have ht : ∀ x ∈ t, ∀ r, dec (enc x ++ r) = some (x, r) :=
      fun x hx r => h x (List.mem_cons_of_mem a hx) r
    simp only [List.map_cons, List.flatten_cons, List.length_cons, List.append_assoc]
    simp [read_uncompressed, ha, ih rest ht, Option.bind]

/-- `from_transform` preserves well-formedness. -/
theorem from_transform_wf (t : TransformP) (cs : Bool) (h : t.wf) :
    (UncompressedTransformP.from_transform t cs).wf := by
  obtain ⟨hs, hr, ht2⟩ := h
  refine ⟨hs, hr, ht2, ?_⟩
  cases cs <;> norm_num [UncompressedTransformP.from_transform]

/-- Claim C1: for every track kind and every uncompressed compression type
(`Direct`, `Constant`, `ConstTransform` all share this code path), reading
back a track that was just written reproduces the input values bit-exactly
(values are raw bit patterns; the path never performs float arithmetic). -/
theorem claim_C1_uncompressed_roundtrip (v : TrackValuesP) (cs : Bool) (hwf : v.wf) :
    (read_track_values_uncompressed v.track_type
        (write_track_values_uncompressed v cs) v.length).map Prod.fst = some v := by
  cases v with
  | transform values =>
    have hx : ∀ x ∈ values.map (fun t => UncompressedTransformP.from_transform t cs),
        ∀ r, decode_uncompressed_transform (encode_uncompressed_transform x ++ r) =
          some (x, r) := by
      intro x hx r
      obtain ⟨t, ht, rfl⟩ := List.mem_map.mp hx
      exact decode_encode_uncompressed_transform _ r (from_transform_wf t cs (hwf t ht))
    have hread := read_uncompressed_encode decode_uncompressed_transform
      encode_uncompressed_transform
      (values.map (fun t => UncompressedTransformP.from_transform t cs)) [] hx
    rw [List.append_nil, List.length_map] at hread
    simp only [TrackValuesP.track_type, TrackValuesP.length,
      write_track_values_uncompressed, read_track_values_uncompressed]
    rw [hread]
    have hcomp : (UncompressedTransformP.to_transform ∘
        fun t => UncompressedTransformP.from_transform t cs) = id :=
      funext fun t => rfl
    simp [List.map_map, hcomp]
  | uvTransform values =>
    have hx : ∀ x ∈ values, ∀ r,
        decode_uv_transform (encode_uv_transform x ++ r) = some (x, r) :=
      fun x hx r => decode_encode_uv_transform x r (hwf x hx)
    have hread := read_uncompressed_encode decode_uv_transform encode_uv_transform
      values [] hx
    rw [List.append_nil] at hread
    simp [TrackValuesP.track_type, TrackValuesP.length, write_track_values_uncompressed,
      read_track_values_uncompressed, hread, Option.bind]
  | float values =>
    have hx : ∀ x ∈ values, ∀ r, decode_u32 (encode_u32 x ++ r) = some (x, r) :=
      fun x hx r => decode_encode_u32 x r (hwf x hx)
    have hread := read_uncompressed_encode decode_u32 encode_u32 values [] hx
    rw [List.append_nil] at hread
    simp [TrackValuesP.track_type, TrackValuesP.length, write_track_values_uncompressed,
      read_track_values_uncompressed, hread, Option.bind]
  | patternIndex values =>
    have hx : ∀ x ∈ values, ∀ r, decode_u32 (encode_u32 x ++ r) = some (x, r) :=
      fun x hx r => decode_encode_u32 x r (hwf x hx)
    have hread := read_uncompressed_encode decode_u32 encode_u32 values [] hx
    rw [List.append_nil] at hread
    simp [TrackValuesP.track_type, TrackValuesP.length, write_track_values_uncompressed,
      read_track_values_uncompressed, hread, Option.bind]
  | boolean values =>
    have hx : ∀ x ∈ values.map (fun b => if b then (1 : Nat) else 0), ∀ r,
        decode_u8 ((fun n => [n]) x ++ r) = some (x, r) := by
      intro x hx r
      obtain ⟨b, -, rfl⟩ := List.mem_map.mp hx
      cases b <;> rfl
    have hread := read_uncompressed_encode decode_u8 (fun n => [n])
      (values.map (fun b => if b then (1 : Nat) else 0)) [] hx
    rw [List.append_nil, List.length_map] at hread
    have hbytes : ((values.map (fun b => if b then (1 : Nat) else 0)).map
        (fun n => [n])).flatten =
        (values.map (fun b => [if b then (1 : Nat) else 0])).flatten := by
      rw [List.map_map]
      rfl
    rw [hbytes] at hread
    simp only [TrackValuesP.track_type, TrackValuesP.length,
      write_track_values_uncompressed, read_track_values_uncompressed]
    rw [hread]
    have hid : ∀ b : Bool, ((if b then (1 : Nat) else 0) != 0) = b := by
      intro b; cases b <;> rfl
    have hcomp : ((fun b => b != 0) ∘ fun b : Bool => if b = true then (1 : Nat) else 0) =
        id := funext hid
    simp [List.map_map, hcomp]
  | vector4 values =>
    have hx : ∀ x ∈ values, ∀ r,
        decode_vector4 (encode_vector4 x ++ r) = some (x, r) :=
      fun x hx r => decode_encode_vector4 x r (hwf x hx)
    have hread := read_uncompressed_encode decode_vector4 encode_vector4 values [] hx
    rw [List.append_nil] at hread
    simp [TrackValuesP.track_type, TrackValuesP.length, write_track_values_uncompressed,
      read_track_values_uncompressed, hread, Option.bind]

/-- Witness for claim C1: the one-frame float track holding the bit pattern
of `1.0f` (0x3F800000) round-trips. -/
theorem claim_C1_witness :
    (TrackValuesP.float [1065353216]).wf ∧
    (read_track_values_uncompressed (TrackValuesP.float [1065353216]).track_type
        (write_track_values_uncompressed (TrackValuesP.float [1065353216]) false)
        (TrackValuesP.float [1065353216]).length).map Prod.fst =
      some (TrackValuesP.float [1065353216]) := by
  have hwf : (TrackValuesP.float [1065353216]).wf := by
    intro n hn
    rw [List.mem_singleton] at hn
    subst hn
    norm_num
  exact ⟨hwf, claim_C1_uncompressed_roundtrip (TrackValuesP.float [1065353216]) false hwf⟩

end Ssbh
